import Mathlib

/-!
Shallow embedding of the Kanban board drag-and-drop column-resolution engine
of the casatrak native app: the `KanbanScreen` component's
`handleStatusChange`, `handleDragStart`, `handleDragEnd`, `panGesture` and
`onColumnLayout` handlers, together with the `PropertyStatus` enumeration and
the board-visible fields of `Property`.

Screen coordinates, translations and scroll offsets are modelled as
integers (ℤ): the source only adds, subtracts and compares them, and every
property proved below is purely order-theoretic in the coordinate carrier.
Card display fields keep ℚ where the source holds fractional numbers.
-/

namespace Kanban

/-- Status enumeration from types/property
(`'Seen' | 'Interested' | 'Contacted Realtor' | 'Visited' | 'On Hold' | 'Irrelevant' | 'Purchased'`). -/
inductive PropertyStatus where
  | seen
  | interested
  | contactedRealtor
  | visited
  | onHold
  | irrelevant
  | purchased
  deriving DecidableEq, Repr

/-- A property record, restricted to the fields the board reads: id, status
and the card-face display fields (title, address, rooms, square_meters,
asked_price, is_flagged). -/
structure Property where
  id : String
  title : String
  address : String
  rooms : ℚ
  square_meters : Option ℚ
  asked_price : Option ℚ
  is_flagged : Bool
  status : PropertyStatus
  deriving DecidableEq, Repr

/-- One value of the `columnLayouts` record: the `x` and `width` a column
reported from its layout event. -/
structure ColumnLayout where
  x : ℤ
  width : ℤ
  deriving DecidableEq, Repr

/-- The `columnLayouts` record as `Object.entries` exposes it: an association list in
key-insertion order (updating an existing key keeps its position). -/
abbrev ColumnLayouts := List (PropertyStatus × ColumnLayout)

/-- Model of `onColumnLayout`: record-spread update of `columnLayouts` — an existing
status keeps its position and gets the new extent, a new status is appended. -/
def onColumnLayout (layouts : ColumnLayouts) (status : PropertyStatus)
    (l : ColumnLayout) : ColumnLayouts :=
  if layouts.any (fun e => e.1 = status) then
    layouts.map (fun e => if e.1 = status then (status, l) else e)
  else
    layouts ++ [(status, l)]

/-- The per-column hit test inside `handleDragEnd`:
`adjustedX = layout.x - scrollX` and the column matches when
`currentX >= adjustedX && currentX <= adjustedX + layout.width`
(both endpoints inclusive). -/
def matchesColumn (scrollX currentX : ℤ) (layout : ColumnLayout) : Bool :=
  let adjustedX := layout.x - scrollX
  decide (adjustedX ≤ currentX) && decide (currentX ≤ adjustedX + layout.width)

/-- The column lookup in `handleDragEnd`:
`Object.entries(columnLayouts).find((_, layout) => ...)` — the first entry,
in insertion order, whose extent contains the pointer. -/
def findTargetColumn (columnLayouts : ColumnLayouts) (scrollX currentX : ℤ) :
    Option (PropertyStatus × ColumnLayout) :=
  columnLayouts.find? (fun e => matchesColumn scrollX currentX e.2)

/-- Resolution of the awaited `updatePropertyStatus` promise. -/
inductive CommitOutcome where
  | success
  | failure
  deriving DecidableEq, Repr

/-- Observable steps a commit performs, in execution order: issuing the
`updatePropertyStatus` network call, applying the `setProperties` local-list
update, and showing the `Alert.alert` error notification. -/
inductive Action where
  | persistCall (id : String) (status : PropertyStatus)
  | localUpdate (id : String) (status : PropertyStatus)
  | alertError
  deriving DecidableEq, Repr

/-- True exactly on `persistCall` actions. -/
def Action.isPersistCall : Action → Bool
  | .persistCall _ _ => true
  | _ => false

/-- True exactly on `localUpdate` actions. -/
def Action.isLocalUpdate : Action → Bool
  | .localUpdate _ _ => true
  | _ => false

/-- Result of one run of `handleStatusChange`: the new `properties` list,
whether the error alert was shown, and the actions in execution order. -/
structure CommitResult where
  properties : List Property
  alertShown : Bool
  actions : List Action
  deriving DecidableEq, Repr

/-- Model of `handleStatusChange(propertyId, newStatus)`: it first awaits
`updatePropertyStatus(propertyId, newStatus)`; only when that call resolves
does it run `setProperties(prev => prev.map(p => p.id === propertyId ?
{...p, status: newStatus} : p))`; when the call rejects it leaves the list
untouched and shows `Alert.alert('Error', ...)`. The awaited outcome is an
explicit argument. -/
def handleStatusChange (properties : List Property) (propertyId : String)
    (newStatus : PropertyStatus) (outcome : CommitOutcome) : CommitResult :=
  match outcome with
  | .success =>
      { properties := properties.map fun p =>
          if p.id = propertyId then { p with status := newStatus } else p
        alertShown := false
        actions := [.persistCall propertyId newStatus,
                    .localUpdate propertyId newStatus] }
  | .failure =>
      { properties := properties
        alertShown := true
        actions := [.persistCall propertyId newStatus, .alertError] }

/-- Whether some local-list update occurs strictly before the first
persistence call in a trace of commit actions. -/
def localUpdateBeforePersist (actions : List Action) : Bool :=
  (actions.takeWhile fun a => !a.isPersistCall).any fun a => a.isLocalUpdate

/-- The `KanbanScreen` state the drag handlers touch: the `properties` list,
`draggingProperty`, `columnLayouts`, `scrollX`, and the shared animated
values `dragX`, `dragY`, `startX`, `startY`, `dragScale`. -/
structure BoardState where
  properties : List Property
  draggingProperty : Option Property
  columnLayouts : ColumnLayouts
  scrollX : ℤ
  dragX : ℤ
  dragY : ℤ
  startX : ℤ
  startY : ℤ
  dragScale : ℚ
  deriving DecidableEq, Repr

/-- Model of `handleDragStart(property, x, y)`: records the dragged card, seeds the
drag coordinates, and raises the overlay scale (the `withSpring(1.1)`
target). -/
def handleDragStart (st : BoardState) (p : Property) (x y : ℤ) : BoardState :=
  { st with
      draggingProperty := some p
      dragX := x
      dragY := y
      startX := x
      startY := y
      dragScale := 11 / 10 }

/-- Model of `handleDragEnd()`: returns early when no card is being dragged; otherwise
reads `currentX = dragX.value`, finds the target column via
`findTargetColumn`, requests a status commit when the target exists and
differs from the card's current status, and resets the session
(`draggingProperty = null`, `dragX`/`dragY` spring to 0, scale to 1). The
returned option is the `handleStatusChange` invocation it fires, if any. -/
def handleDragEnd (st : BoardState) : BoardState × Option (String × PropertyStatus) :=
  match st.draggingProperty with
  | none => (st, none)
  | some dragging =>
      let currentX := st.dragX
      let targetColumn := findTargetColumn st.columnLayouts st.scrollX currentX
      let request :=
        match targetColumn with
        | some (newStatus, _) =>
            if dragging.status ≠ newStatus then some (dragging.id, newStatus)
            else none
        | none => none
      ({ st with
          draggingProperty := none
          dragX := 0
          dragY := 0
          dragScale := 1 }, request)

/-- Full board state plus the environment-visible side effects: `pending`
holds the in-flight `updatePropertyStatus` calls (id, requested status) in
issue order, `alerts` counts error notifications shown so far. -/
structure SysState where
  board : BoardState
  pending : List (String × PropertyStatus)
  alerts : Nat
  deriving DecidableEq, Repr

/-- The discrete events the board's single-threaded event loop processes:
a card's long-press (which calls `handleDragStart` with the measured card
center), the pan gesture's `onStart` / `onUpdate` / `onEnd` callbacks, a
platform cancellation of the pan gesture, and the resolution of one pending
persistence call. -/
inductive Event where
  | longPressDragStart (p : Property) (x y : ℤ)
  | panStart
  | panUpdate (translationX translationY : ℤ)
  | panEnd
  | panCancel
  | commitReturn (idx : Nat) (outcome : CommitOutcome)
  deriving DecidableEq, Repr

/-- One step of the event loop.

`longPressDragStart` is available only for a card rendered on the board
(a member of `properties`) whose `KanbanCard` is not disabled — the JSX sets
`disabled={isDragging}` with `isDragging = draggingProperty?.id === property.id`,
so only the currently dragged card itself is blocked.

`panStart` and `panUpdate` mirror `panGesture.onStart` / `.onUpdate`, which
only fire while the gesture is enabled (`.enabled(!!draggingProperty)`).

`panEnd` runs `handleDragEnd` and issues the requested persistence call,
appending it to `pending`. `panCancel` runs the same handler:
react-native-gesture-handler delivers the end of a previously-active gesture
— including its cancellation — to the sole registered `onEnd` callback, and
the source registers no separate cancellation handler.

`commitReturn idx outcome` resolves the pending call at `idx` with the given
outcome, running the rest of `handleStatusChange`. -/
def stepEvent (s : SysState) (e : Event) : SysState :=
  match e with
  | .longPressDragStart p x y =>
      let enabled : Bool :=
        s.board.properties.contains p &&
          (match s.board.draggingProperty with
           | some q => q.id != p.id
           | none => true)
      if enabled then { s with board := handleDragStart s.board p x y } else s
  | .panStart =>
      match s.board.draggingProperty with
      | some _ =>
          { s with board :=
              { s.board with startX := s.board.dragX, startY := s.board.dragY } }
      | none => s
  | .panUpdate tx ty =>
      match s.board.draggingProperty with
      | some _ =>
          { s with board :=
              { s.board with
                  dragX := s.board.startX + tx
                  dragY := s.board.startY + ty } }
      | none => s
  | .panEnd =>
      let r := handleDragEnd s.board
      { s with board := r.1, pending := s.pending ++ r.2.toList }
  | .panCancel =>
      let r := handleDragEnd s.board
      { s with board := r.1, pending := s.pending ++ r.2.toList }
  | .commitReturn idx outcome =>
      match s.pending.get? idx with
      | none => s
      | some (id, newStatus) =>
          let r := handleStatusChange s.board.properties id newStatus outcome
          { board := { s.board with properties := r.properties }
            pending := s.pending.eraseIdx idx
            alerts := s.alerts + (if r.alertShown then 1 else 0) }

/-- Run a sequence of events from a state. -/
def runEvents (s : SysState) (events : List Event) : SysState :=
  events.foldl stepEvent s

/-- The single-flight property claimed by the spec: no two in-flight
persistence calls share a card id. -/
def singleFlight (s : SysState) : Prop :=
  (s.pending.map Prod.fst).Nodup

/-- Pairwise non-overlap of the scroll-corrected extents of a registry:
for any two registered columns, one ends no later than the other begins. -/
def nonOverlapping (cols : ColumnLayouts) (s : ℤ) : Prop :=
  cols.Pairwise fun a b =>
    a.2.x - s + a.2.width ≤ b.2.x - s ∨ b.2.x - s + b.2.width ≤ a.2.x - s

/-! Concrete sample data for witnesses and counterexamples. -/

/-- A sample board card in status `seen`. -/
def cardA : Property :=
  { id := "a"
    title := "Dizengoff 12"
    address := "Dizengoff 12, Tel Aviv"
    rooms := 3
    square_meters := some 80
    asked_price := some 1000000
    is_flagged := false
    status := .seen }

/-- A second sample card, in status `visited`. -/
def cardB : Property :=
  { id := "b"
    title := "Herzl 5"
    address := "Herzl 5, Haifa"
    rooms := 4
    square_meters := some 95
    asked_price := some 1500000
    is_flagged := true
    status := .visited }

/-- Three contiguous-ish columns as the board lays them out. -/
def demoLayouts : ColumnLayouts :=
  [(.seen, ⟨0, 280⟩), (.interested, ⟨292, 280⟩), (.visited, ⟨584, 280⟩)]

/-- A freshly loaded board holding `cardA`, nothing dragging. -/
def initialSys : SysState :=
  { board :=
      { properties := [cardA]
        draggingProperty := none
        columnLayouts := demoLayouts
        scrollX := 0
        dragX := 0
        dragY := 0
        startX := 0
        startY := 0
        dragScale := 1 }
    pending := []
    alerts := 0 }

/-- State `initialSys` after `cardA`'s long-press: a drag session is active. -/
def sysDragging : SysState :=
  stepEvent initialSys (.longPressDragStart cardA 100 50)

/-- Board of `sysDragging` with the pointer parked to the right of every
registered column. -/
def boardNoMatch : BoardState :=
  { sysDragging.board with dragX := 900 }

/-- Two contiguous columns sharing the boundary point `280`. -/
def contiguousLayouts : ColumnLayouts :=
  [(.seen, ⟨0, 280⟩), (.interested, ⟨280, 280⟩)]

/-- Events: drag `cardA` to the `interested` column and release, then drag it
again to the `visited` column and release, before either commit resolves. -/
def doubleDragEvents : List Event :=
  [.longPressDragStart cardA 100 50, .panStart, .panUpdate 300 0, .panEnd,
   .longPressDragStart cardA 100 50, .panStart, .panUpdate 484 0, .panEnd]

/-- Events: drag `cardA` over the `interested` column, after which the
platform cancels the gesture. -/
def cancelledDragEvents : List Event :=
  [.longPressDragStart cardA 100 50, .panStart, .panUpdate 300 0, .panCancel]

/-! Helper lemmas. -/

/-- The hit test in propositional form: both endpoints are inclusive. -/
theorem matchesColumn_iff (s x : ℤ) (l : ColumnLayout) :
    matchesColumn s x l = true ↔ l.x - s ≤ x ∧ x ≤ l.x - s + l.width := by
  simp [matchesColumn]

/-- Shifting the pointer by the scroll offset absorbs the offset. -/
theorem matchesColumn_scroll_shift (s x : ℤ) (l : ColumnLayout) :
    matchesColumn s x l = matchesColumn 0 (x + s) l := by
  simp only [matchesColumn]
  congr 1
  · exact decide_eq_decide.mpr ⟨fun h => by linarith, fun h => by linarith⟩
  · exact decide_eq_decide.mpr ⟨fun h => by linarith, fun h => by linarith⟩

/-- Characterization of `List.find?`: it returns `a` exactly when `a` sits at
some index `i` satisfying the predicate while every earlier index fails it. -/
theorem find?_eq_some_iff_first {α : Type} (p : α → Bool) (l : List α) (a : α) :
    l.find? p = some a ↔
      ∃ i, ∃ hi : i < l.length, l.get ⟨i, hi⟩ = a ∧ p a = true ∧
        ∀ j, ∀ hj : j < l.length, j < i → p (l.get ⟨j, hj⟩) = false := by
  induction l with
  | nil => simp
  | cons b t ih =>
    cases hpb : p b with
    | true =>
      rw [List.find?_cons_of_pos _ hpb]
      constructor
      · intro h
        obtain rfl : b = a := Option.some.inj h
        exact ⟨0, Nat.succ_pos _, rfl, hpb,
          fun j hj hlt => absurd hlt (Nat.not_lt_zero j)⟩
      · rintro ⟨i, hi, hget, hpa, hfirst⟩
        cases i with
        | zero => rw [← hget]; rfl
        | succ n =>
          have h0 := hfirst 0 (Nat.succ_pos _) (Nat.succ_pos n)
          rw [show ((b :: t).get ⟨0, Nat.succ_pos _⟩) = b from rfl] at h0
          rw [hpb] at h0
          exact absurd h0 (by simp)
    | false =>
      rw [List.find?_cons_of_neg _ (by rw [hpb]; exact Bool.false_ne_true), ih]
      constructor
      · rintro ⟨i, hi, hget, hpa, hfirst⟩
        refine ⟨i + 1, Nat.succ_lt_succ hi, hget, hpa, ?_⟩
        intro j hj hlt
        cases j with
        | zero => exact hpb
        | succ m =>
          exact hfirst m (Nat.lt_of_succ_lt_succ hj) (Nat.lt_of_succ_lt_succ hlt)
      · rintro ⟨i, hi, hget, hpa, hfirst⟩
        cases i with
        | zero =>
          have hb : b = a := hget
          rw [← hb, hpb] at hpa
          exact absurd hpa (by simp)
        | succ n =>
          refine ⟨n, Nat.lt_of_succ_lt_succ hi, hget, hpa, ?_⟩
          intro j hj hlt
          exact hfirst (j + 1) (Nat.succ_lt_succ hj) (Nat.succ_lt_succ hlt)

/-! Claim theorems. -/

/-- Claim C1 counterexample: at a concrete input, the commit's action trace
issues the persistence call first and the local-list update second, so no
local update precedes the persistence call — the claimed optimistic ordering
fails. -/
theorem commit_not_optimistic_counterexample :
    (handleStatusChange [cardA] "a" .interested .success).actions =
      [.persistCall "a" .interested, .localUpdate "a" .interested] ∧
    localUpdateBeforePersist
      (handleStatusChange [cardA] "a" .interested .success).actions = false :=
  ⟨rfl, rfl⟩

/-- Claim C1 amended: for every commit, `handleStatusChange` issues the
persistence call first (it is the head of the action trace); the local-list
update occurs only after it, and only when the call succeeds — never before
the call. -/
theorem commit_persist_call_first (props : List Property) (id : String)
    (ns : PropertyStatus) (oc : CommitOutcome) :
    (handleStatusChange props id ns oc).actions.head? =
      some (.persistCall id ns) ∧
    (Action.localUpdate id ns ∈ (handleStatusChange props id ns oc).actions ↔
      oc = .success) ∧
    localUpdateBeforePersist (handleStatusChange props id ns oc).actions = false := by
  cases oc <;>
    simp [handleStatusChange, localUpdateBeforePersist, Action.isPersistCall,
      Action.isLocalUpdate, List.takeWhile]

/-- Claim C2: if `updatePropertyStatus` rejects during a commit, the
`properties` list after the failed commit equals the list before the commit
began — every card keeps its prior status — and the user-visible error alert
is shown; at the event-loop level, a failing `commitReturn` leaves the
board's card list unchanged. -/
theorem commit_failure_preserves_board (props : List Property) (id : String)
    (ns : PropertyStatus) :
    (handleStatusChange props id ns .failure).properties = props ∧
    (handleStatusChange props id ns .failure).alertShown = true ∧
    ∀ s : SysState, ∀ idx : Nat,
      (stepEvent s (.commitReturn idx .failure)).board.properties =
        s.board.properties := by
  refine ⟨rfl, rfl, fun s idx => ?_⟩
  simp only [stepEvent]
  split
  · rfl
  · rfl

/-- Claim C5: resolving with scroll offset `s` and pointer `x` returns the
same result as resolving with offset `0` and pointer `x + s`, for every
registry of column extents. -/
theorem resolve_scroll_correction (cols : ColumnLayouts) (s x : ℤ) :
    findTargetColumn cols s x = findTargetColumn cols 0 (x + s) := by
  have hfun : (fun e : PropertyStatus × ColumnLayout => matchesColumn s x e.2) =
      (fun e => matchesColumn 0 (x + s) e.2) := by
    funext e
    exact matchesColumn_scroll_shift s x e.2
  unfold findTargetColumn
  rw [hfun]

/-- Claim C4: the hit resolver checks columns in registry insertion order; a
column matches exactly when the pointer lies in the closed interval from
`originX - scrollOffset` to `originX - scrollOffset + width`; the first
matching column is returned; and when no column matches, `handleDragEnd`
requests no persistence call and leaves every card's status unchanged. -/
theorem hit_resolver_contract (cols : ColumnLayouts) (s x : ℤ) :
    (∀ l : ColumnLayout,
        matchesColumn s x l = true ↔ l.x - s ≤ x ∧ x ≤ l.x - s + l.width) ∧
    (∀ c : PropertyStatus × ColumnLayout,
        findTargetColumn cols s x = some c ↔
          ∃ i, ∃ hi : i < cols.length, cols.get ⟨i, hi⟩ = c ∧
            matchesColumn s x c.2 = true ∧
            ∀ j, ∀ hj : j < cols.length, j < i →
              matchesColumn s x (cols.get ⟨j, hj⟩).2 = false) ∧
    (∀ st : BoardState, st.columnLayouts = cols → st.scrollX = s →
        st.dragX = x → findTargetColumn cols s x = none →
        (handleDragEnd st).2 = none ∧
          (handleDragEnd st).1.properties = st.properties) := by
  refine ⟨fun l => matchesColumn_iff s x l,
    fun c => find?_eq_some_iff_first _ cols c,
    fun st h1 h2 h3 hnone => ?_⟩
  subst h1
  subst h2
  subst h3
  cases hd : st.draggingProperty with
  | none => simp [handleDragEnd, hd]
  | some dragging => simp [handleDragEnd, hd, hnone]

/-- Witness for C4: on the concrete board whose pointer sits right of every
column, resolution misses, no commit is requested and the list is
untouched. -/
theorem hit_resolver_contract_witness :
    (handleDragEnd boardNoMatch).2 = none ∧
    (handleDragEnd boardNoMatch).1.properties = boardNoMatch.properties :=
  (hit_resolver_contract boardNoMatch.columnLayouts boardNoMatch.scrollX
      boardNoMatch.dragX).2.2 boardNoMatch rfl rfl rfl (by decide)

/-- Claim C6: when the resolved target status equals the dragged card's
current status, `handleDragEnd` requests no persistence call and the card
list is unchanged. -/
theorem drag_end_noop_on_same_status (st : BoardState) (p : Property)
    (c : PropertyStatus × ColumnLayout)
    (hdrag : st.draggingProperty = some p)
    (hfind : findTargetColumn st.columnLayouts st.scrollX st.dragX = some c)
    (hstat : c.1 = p.status) :
    (handleDragEnd st).2 = none ∧
    (handleDragEnd st).1.properties = st.properties := by
  cases c with
  | mk cs cl =>
    simp only at hstat
    subst hstat
    simp [handleDragEnd, hdrag, hfind]

/-- Witness for C6: releasing `cardA` (status `seen`) over the `seen` column
commits nothing and leaves the list unchanged. -/
theorem drag_end_noop_on_same_status_witness :
    (handleDragEnd sysDragging.board).2 = none ∧
    (handleDragEnd sysDragging.board).1.properties =
      sysDragging.board.properties :=
  drag_end_noop_on_same_status sysDragging.board cardA (.seen, ⟨0, 280⟩)
    (by decide) (by decide) rfl

/-- Claim C7: with pairwise non-overlapping scroll-corrected extents, a
pointer strictly inside one registered column's corrected extent resolves to
exactly that column, and no other registered column's interval check matches
the pointer. -/
theorem resolve_unique_strictly_inside (cols : ColumnLayouts) (s x : ℤ)
    (i : Nat) (hi : i < cols.length) (hno : nonOverlapping cols s)
    (hlo : (cols.get ⟨i, hi⟩).2.x - s < x)
    (hhi : x < (cols.get ⟨i, hi⟩).2.x - s + (cols.get ⟨i, hi⟩).2.width) :
    findTargetColumn cols s x = some (cols.get ⟨i, hi⟩) ∧
    ∀ j, ∀ hj : j < cols.length, j ≠ i →
      matchesColumn s x (cols.get ⟨j, hj⟩).2 = false := by
  have hpair := List.pairwise_iff_get.mp hno
  have hother : ∀ j, ∀ hj : j < cols.length, j ≠ i →
      matchesColumn s x (cols.get ⟨j, hj⟩).2 = false := by
    intro j hj hne
    cases hmb : matchesColumn s x (cols.get ⟨j, hj⟩).2 with
    | false => rfl
    | true =>
      exfalso
      rcases (matchesColumn_iff s x _).mp hmb with ⟨h1, h2⟩
      rcases Nat.lt_or_ge j i with hlt | hge
      · rcases hpair ⟨j, hj⟩ ⟨i, hi⟩ hlt with h | h
        · linarith
        · linarith
      · have hlt2 : i < j := Nat.lt_of_le_of_ne hge (Ne.symm hne)
        rcases hpair ⟨i, hi⟩ ⟨j, hj⟩ hlt2 with h | h
        · linarith
        · linarith
  refine ⟨?_, hother⟩
  rw [findTargetColumn, find?_eq_some_iff_first]
  refine ⟨i, hi, rfl,
    (matchesColumn_iff s x _).mpr ⟨le_of_lt hlo, le_of_lt hhi⟩, ?_⟩
  intro j hj hlt
  exact hother j hj (Nat.ne_of_lt hlt)

/-- Witness for C7: on the demo registry with scroll offset `10`, the pointer
`400` lies strictly inside the corrected `interested` extent and resolves to
the `interested` column. -/
theorem resolve_unique_strictly_inside_witness :
    findTargetColumn demoLayouts 10 400 = some (.interested, ⟨292, 280⟩) :=
  (resolve_unique_strictly_inside demoLayouts 10 400 1 (by decide)
    (by unfold nonOverlapping; decide) (by decide) (by decide)).1

/-- Claim C10: both endpoints of the hit test are inclusive, so a pointer
lying exactly on a point shared by the scroll-corrected extents of two
registered columns matches both; provided no column registered before the
earlier of the two also matches, `findTargetColumn` deterministically returns
the earlier-registered column. -/
theorem boundary_tie_break (cols : ColumnLayouts) (s x : ℤ) (i j : Nat)
    (hi : i < cols.length) (hj : j < cols.length) (_hij : i < j)
    (hwi : 0 ≤ (cols.get ⟨i, hi⟩).2.width)
    (hwj : 0 ≤ (cols.get ⟨j, hj⟩).2.width)
    (hxi : x = (cols.get ⟨i, hi⟩).2.x - s + (cols.get ⟨i, hi⟩).2.width)
    (hxj : x = (cols.get ⟨j, hj⟩).2.x - s)
    (hfirst : ∀ k, ∀ hk : k < cols.length, k < i →
      matchesColumn s x (cols.get ⟨k, hk⟩).2 = false) :
    matchesColumn s x (cols.get ⟨i, hi⟩).2 = true ∧
    matchesColumn s x (cols.get ⟨j, hj⟩).2 = true ∧
    findTargetColumn cols s x = some (cols.get ⟨i, hi⟩) := by
  have hmi : matchesColumn s x (cols.get ⟨i, hi⟩).2 = true :=
    (matchesColumn_iff s x _).mpr ⟨by linarith, by linarith⟩
  have hmj : matchesColumn s x (cols.get ⟨j, hj⟩).2 = true :=
    (matchesColumn_iff s x _).mpr ⟨by linarith, by linarith⟩
  refine ⟨hmi, hmj, ?_⟩
  rw [findTargetColumn, find?_eq_some_iff_first]
  exact ⟨i, hi, rfl, hmi, hfirst⟩

/-- Witness for C10: on two contiguous columns sharing the point `280`, the
pointer `280` matches both and resolves to the first-registered column. -/
theorem boundary_tie_break_witness :
    matchesColumn 0 280 (⟨0, 280⟩ : ColumnLayout) = true ∧
    matchesColumn 0 280 (⟨280, 280⟩ : ColumnLayout) = true ∧
    findTargetColumn contiguousLayouts 0 280 = some (.seen, ⟨0, 280⟩) :=
  boundary_tie_break contiguousLayouts 0 280 0 1 (by decide) (by decide)
    (by decide) (by decide) (by decide) (by decide) (by decide)
    (fun k hk hlt => absurd hlt (Nat.not_lt_zero k))

/-- Claim C9: a completed drag changes at most one entry of the card list,
and in that entry only the status field: `handleDragEnd` itself never edits
the list, the commit's result keeps the length, every entry is either
unchanged or equal to the old entry with only its status replaced (its id in
particular is preserved), and — when card ids are unique — at most one index
differs. -/
theorem commit_frame_property (props : List Property) (id : String)
    (ns : PropertyStatus) (oc : CommitOutcome)
    (hnodup : (props.map Property.id).Nodup) :
    (∀ st : BoardState, (handleDragEnd st).1.properties = st.properties) ∧
    (handleStatusChange props id ns oc).properties.length = props.length ∧
    (∀ i, ∀ hp : i < props.length,
      ∀ hr : i < (handleStatusChange props id ns oc).properties.length,
        (handleStatusChange props id ns oc).properties.get ⟨i, hr⟩ =
            props.get ⟨i, hp⟩ ∨
          ((handleStatusChange props id ns oc).properties.get ⟨i, hr⟩ =
              { props.get ⟨i, hp⟩ with status := ns } ∧
            (props.get ⟨i, hp⟩).id = id)) ∧
    (∀ i j, ∀ hpi : i < props.length, ∀ hpj : j < props.length,
      ∀ hri : i < (handleStatusChange props id ns oc).properties.length,
      ∀ hrj : j < (handleStatusChange props id ns oc).properties.length,
        (handleStatusChange props id ns oc).properties.get ⟨i, hri⟩ ≠
          props.get ⟨i, hpi⟩ →
        (handleStatusChange props id ns oc).properties.get ⟨j, hrj⟩ ≠
          props.get ⟨j, hpj⟩ → i = j) := by
  have hde : ∀ st : BoardState, (handleDragEnd st).1.properties = st.properties := by
    intro st
    cases hd : st.draggingProperty <;> simp [handleDragEnd, hd]
  cases oc with
  | failure =>
      refine ⟨hde, rfl, fun i hp hr => Or.inl rfl, fun i j hpi hpj hri hrj hne _ => ?_⟩
      exact absurd rfl hne
  | success =>
      have hchanged : ∀ i, ∀ hp : i < props.length,
          ∀ hr : i < (handleStatusChange props id ns .success).properties.length,
            (handleStatusChange props id ns .success).properties.get ⟨i, hr⟩ =
                props.get ⟨i, hp⟩ ∨
              ((handleStatusChange props id ns .success).properties.get ⟨i, hr⟩ =
                  { props.get ⟨i, hp⟩ with status := ns } ∧
                (props.get ⟨i, hp⟩).id = id) := by
        intro i hp hr
        have hget : (handleStatusChange props id ns .success).properties.get ⟨i, hr⟩ =
            if (props.get ⟨i, hp⟩).id = id
            then { props.get ⟨i, hp⟩ with status := ns }
            else props.get ⟨i, hp⟩ := by
          simp [handleStatusChange, List.get_eq_getElem, List.getElem_map]
        by_cases hid : (props.get ⟨i, hp⟩).id = id
        · exact Or.inr ⟨by rw [hget, if_pos hid], hid⟩
        · exact Or.inl (by rw [hget, if_neg hid])
      refine ⟨hde, by simp [handleStatusChange], hchanged,
        fun i j hpi hpj hri hrj hnei hnej => ?_⟩
      have hidi : (props.get ⟨i, hpi⟩).id = id := by
        rcases hchanged i hpi hri with h | ⟨_, h⟩
        · exact absurd h hnei
        · exact h
      have hidj : (props.get ⟨j, hpj⟩).id = id := by
        rcases hchanged j hpj hrj with h | ⟨_, h⟩
        · exact absurd h hnej
        · exact h
      have hmi : i < (props.map Property.id).length := by simpa using hpi
      have hmj : j < (props.map Property.id).length := by simpa using hpj
      have heq : (props.map Property.id).get ⟨i, hmi⟩ =
          (props.map Property.id).get ⟨j, hmj⟩ := by
        simp only [List.get_eq_getElem, List.getElem_map]
        simp only [List.get_eq_getElem] at hidi hidj
        rw [hidi, hidj]
      exact congrArg Fin.val (hnodup.get_inj_iff.mp heq)

/-- Witness for C9: committing `visited` for card `"a"` on the two-card demo
list keeps the list length. -/
theorem commit_frame_property_witness :
    (handleStatusChange [cardA, cardB] "a" PropertyStatus.visited
        .success).properties.length = ([cardA, cardB] : List Property).length :=
  (commit_frame_property [cardA, cardB] "a" PropertyStatus.visited .success
    (by decide)).2.1

/-- Claim C3 counterexample: dragging `cardA` to `interested` and releasing,
then immediately dragging it again to `visited` and releasing before the
first commit resolves, leaves two in-flight persistence calls for the same
card id — the code rejects neither drag, so single-flight fails. -/
theorem single_flight_counterexample :
    (runEvents initialSys doubleDragEvents).pending =
      [("a", .interested), ("a", .visited)] ∧
    ¬ singleFlight (runEvents initialSys doubleDragEvents) := by
  refine ⟨by decide, ?_⟩
  unfold singleFlight
  decide

/-- Claim C3 amended: the code enforces only session-level exclusion, not
commit-level single-flight: while a card's drag session is active that same
card cannot start a new drag (its `KanbanCard` is disabled), and a release
always returns the session to Idle synchronously — before its commit
resolves — after which a new drag, and hence a second in-flight commit for
the same card, is accepted. -/
theorem drag_session_exclusion (s : SysState) (p q : Property) (x y : ℤ)
    (hq : s.board.draggingProperty = some q) (hid : q.id = p.id) :
    stepEvent s (.longPressDragStart p x y) = s ∧
    ∀ s2 : SysState, (stepEvent s2 .panEnd).board.draggingProperty = none := by
  constructor
  · simp [stepEvent, hq, hid]
  · intro s2
    cases hd : s2.board.draggingProperty <;>
      simp [stepEvent, handleDragEnd, hd]

/-- Witness for the amended C3: while `cardA`'s session is active, a second
long-press on `cardA` is ignored. -/
theorem drag_session_exclusion_witness :
    stepEvent sysDragging (.longPressDragStart cardA 200 80) = sysDragging :=
  (drag_session_exclusion sysDragging cardA cardA 200 80 (by decide) rfl).1

/-- Claim C8 counterexample: after the platform cancels the gesture of a drag
hovering over the `interested` column, a persistence call for the cancelled
drag is in flight — cancellation is not free of persistence calls. -/
theorem cancelled_drag_issues_commit_counterexample :
    (runEvents initialSys cancelledDragEvents).pending =
      [("a", PropertyStatus.interested)] := by
  decide

/-- Claim C8 amended: on platform cancellation the session does transition to
Idle with the visual elevation reverted (scale springs back to `1`) — it is
never left Active — but, because the source routes cancellation of an active
gesture through its only registered end callback, the cancellation is
processed identically to a release: hit resolution runs and a persistence
call may be issued for the cancelled drag. -/
theorem cancel_transitions_to_idle (s : SysState) (p : Property)
    (h : s.board.draggingProperty = some p) :
    (stepEvent s .panCancel).board.draggingProperty = none ∧
    (stepEvent s .panCancel).board.dragScale = 1 ∧
    stepEvent s .panCancel = stepEvent s .panEnd := by
  refine ⟨?_, ?_, rfl⟩ <;> simp [stepEvent, handleDragEnd, h]

/-- Witness for the amended C8: cancelling `cardA`'s active drag returns the
session to Idle. -/
theorem cancel_transitions_to_idle_witness :
    (stepEvent sysDragging .panCancel).board.draggingProperty = none :=
  (cancel_transitions_to_idle sysDragging cardA (by decide)).1

end Kanban
